import Mathlib

/-!
Verification of the prox reverse-proxy core (proxy.go, router.go, backend.go)
against its natural-language specification.

Shallow embedding conventions:
* Stateful Go methods on `defaultProxy` become explicit state passing over
  `ProxyState`.
* A Go `panic` is modelled as the `GoResult.panicked` constructor; an
  ordinary Go error return value is modelled with `Except.error`.  The two
  are kept distinct because several spec sentences turn on the difference.
* The standard-library collaborator `net/url.Parse` is modelled as a
  parameter `parse : String → Except String String` returning the canonical
  string form of the parsed URL (the embedding only ever needs the string
  form, obtained in Go via `URL.String()`); determinism of `parse` is all
  the claims depend on.
* `net/http.ServeMux` is embedded concretely (registration, duplicate
  panic, exact/subtree matching, the trailing-slash redirect), because the
  routing claims are decided by its behaviour.  Host-based patterns and
  path cleaning are outside the paths exercised here and are omitted; all
  pattern and path literals used are ASCII, where byte length and
  character count coincide, so lengths are measured in characters.
* `httputil.ReverseProxy` forwarding is modelled at its interface: a
  response value recording the URL the request was forwarded to.
* `sync` locks guard single reads/writes here and are dropped in the
  sequential embedding; wall-clock fields (`HealthStatus.LastCheck`) are
  dropped likewise.
-/

namespace ProxVerify

/-- Outcome of running a piece of Go code that can panic: either the normal
result or an unwound panic with its message.  Distinct from `Except`, which
models an ordinary Go error return value. -/
inductive GoResult (α : Type) where
  | ok (a : α)
  | panicked (msg : String)
deriving DecidableEq

/-- The part of an `http.Request` the routing core inspects. -/
structure Request where
  path : String

/-- Observable outcome of serving one request.  `proxied url` stands for
`httputil` forwarding the request to the server at `url`; `errResp` for
`http.Error(w, body, code)`; `redirect` for the `ServeMux` trailing-slash
redirect; `custom` for an opaque user handler; `panicked` for a runtime
panic escaping the handler. -/
inductive HResp where
  | proxied (url : String)
  | errResp (body : String) (code : Nat)
  | redirect (code : Nat) (loc : String)
  | custom (tag : String)
  | panicked (msg : String)
deriving DecidableEq

/-- Event trace used to observe middleware entry/exit order. -/
abbrev Trace := List String

/-- An `http.Handler`: from a request to a response plus the trace of
middleware events emitted while handling it. -/
def Handler : Type := Request → HResp × Trace

/-- `type Middleware func(http.Handler) http.Handler` (proxy.go). -/
def Middleware : Type := Handler → Handler

/-- `type Server struct { URL *url.URL; Healthy bool; mu sync.RWMutex }`
(backend.go).  `url` holds the string form of the parsed URL; the mutex
guarding `Healthy` is dropped in the sequential embedding. -/
structure Server where
  url : String
  healthy : Bool
deriving DecidableEq

/-- The `LoadBalancer` interface (backend.go): `Select(servers, req)`
returns a chosen server or an error.  Concrete strategies live outside the
verified sources; any function of this type is an admissible
implementation. -/
structure LoadBalancer where
  select : List Server → Request → Except String Server

/-- `type healthChecker struct { path string; interval time.Duration }`
(backend.go).  The struct carries only its configuration; the checking
logic is an unimplemented TODO in the source. -/
structure HealthChecker where
  path : String
  interval : Int

/-- The two `Backend` implementations in the sources: `simpleBackend`
(name, url, a ReverseProxy for that url) and `clusterBackend`
(name, servers, loadBalancer, healthCheck).  The `loadBalancer` interface
field may be nil, hence `Option`. -/
inductive Backend where
  | simple (name : String) (url : String)
  | cluster (name : String) (servers : List Server)
      (loadBalancer : Option LoadBalancer) (healthCheck : Option HealthChecker)

/-- The servers list of a backend (`simpleBackend` stores a bare URL, no
`Server` values). -/
def backendServers : Backend → List Server
  | .simple _ _ => []
  | .cluster _ svs _ _ => svs

/-- `type HealthStatus struct { Healthy bool; LastCheck time.Time; Error error }`
(backend.go); the wall-clock `LastCheck` (always `time.Now()` at the call)
and the never-assigned `Error` are dropped. -/
structure HealthStatusR where
  healthy : Bool
deriving DecidableEq

/-- Go map assignment `m[k] = v` on a string-keyed map, represented as an
association list: overwrite the entry if the key is present, otherwise add
it.  (Go map iteration order is unspecified; no claim depends on order.) -/
def goMapInsert {α : Type} (m : List (String × α)) (k : String) (v : α) :
    List (String × α) :=
  if m.any (fun e => e.1 == k) then
    m.map (fun e => if e.1 == k then (k, v) else e)
  else
    m ++ [(k, v)]

/-- `clusterBackend.HealthStatus` / `simpleBackend.HealthStatus`
(backend.go): one map entry per server, keyed by `server.URL.String()`,
with the current `Healthy` flag; a simple backend reports its single URL
as always healthy. -/
def healthStatus : Backend → List (String × HealthStatusR)
  | .simple _ url => [(url, { healthy := true })]
  | .cluster _ svs _ _ =>
      svs.foldl (fun m s => goMapInsert m s.url { healthy := s.healthy }) []

/-- Go panic message for calling a method through a nil interface. -/
def nilDerefMsg : String :=
  "runtime error: invalid memory address or nil pointer dereference"

/-- `clusterBackend.ServeHTTP` / `simpleBackend.ServeHTTP` (backend.go),
with explicit state passing: the returned backend is the receiver after
the call (the source mutates nothing).  The cluster case hands the full,
unfiltered `b.servers` to `Select`; a nil `loadBalancer` is a nil
interface dereference, hence a panic; a `Select` error yields
`http.Error(w, "No available backend", http.StatusServiceUnavailable)`;
otherwise the request is forwarded to the selected server. -/
def serveHTTP : Backend → Request → HResp × Backend
  | b@(.simple _ url), _ => (.proxied url, b)
  | b@(.cluster _ servers lb _), r =>
    match lb with
    | none => (.panicked nilDerefMsg, b)
    | some l =>
      match l.select servers r with
      | .error _ => (.errResp "No available backend" 503, b)
      | .ok s => (.proxied s.url, b)

/-- A backend used as the `http.Handler` of a route (buildHandler assigns
`handler = route.backend`). -/
def backendHandler (b : Backend) : Handler :=
  fun r => ((serveHTTP b r).1, [])

/-- `type Route struct { pattern string; backend Backend; middlewares []Middleware; handler http.Handler }` (router.go). -/
structure Route where
  pattern : String
  backend : Option Backend
  handler : Option Handler
  middlewares : List Middleware

/-- The mutable state of `defaultProxy` (proxy.go): global middlewares,
registered routes, the named backend registry, and — once
`ListenAndServe` has run — the built `ServeMux` the live server uses. -/
structure ProxyState where
  middlewares : List Middleware
  routes : List Route
  backends : List (String × Backend)
  server : Option (List (String × Handler))

/-- `prox.New()` (proxy.go): empty middleware list, route list and backend
registry; no server yet. -/
def emptyProxy : ProxyState :=
  { middlewares := [], routes := [], backends := [], server := none }

/-- `defaultProxy.Use` (proxy.go): append global middlewares. -/
def useMW (st : ProxyState) (mws : List Middleware) : ProxyState :=
  { st with middlewares := st.middlewares ++ mws }

/-- `proxy.Route(pattern).Use(mws...).To(backend)` (router.go): the
builder accumulates `mws`, and `To` constructs the route and appends it to
`proxy.routes` under the write lock.  Returns the route and the updated
state; there is no failure path. -/
def routeTo (st : ProxyState) (pat : String) (mws : List Middleware)
    (b : Backend) : Route × ProxyState :=
  let route : Route :=
    { pattern := pat, backend := some b, handler := none, middlewares := mws }
  (route, { st with routes := st.routes ++ [route] })

/-- `proxy.Route(pattern).Use(mws...).ToHandler(h)` (router.go). -/
def routeToHandler (st : ProxyState) (pat : String) (mws : List Middleware)
    (h : Handler) : Route × ProxyState :=
  let route : Route :=
    { pattern := pat, backend := none, handler := some h, middlewares := mws }
  (route, { st with routes := st.routes ++ [route] })

/-! ### The builder and `Build` (backend.go) -/

/-- `defaultBackendBuilder` (backend.go). -/
structure BackendBuilderS where
  name : String
  servers : List String
  loadBalancer : Option LoadBalancer
  healthPath : String
  healthInterval : Int

/-- `defaultProxy.Backend(name)` (proxy.go): fresh builder, only the name
set. -/
def backendBuilder (name : String) : BackendBuilderS :=
  { name := name, servers := [], loadBalancer := none,
    healthPath := "", healthInterval := 0 }

/-- `defaultBackendBuilder.AddServers` (backend.go). -/
def addServers (bb : BackendBuilderS) (urls : List String) : BackendBuilderS :=
  { bb with servers := bb.servers ++ urls }

/-- `defaultBackendBuilder.WithLoadBalancer` (backend.go). -/
def withLoadBalancer (bb : BackendBuilderS) (lb : LoadBalancer) : BackendBuilderS :=
  { bb with loadBalancer := some lb }

/-- `defaultBackendBuilder.WithHealthCheck` (backend.go). -/
def withHealthCheck (bb : BackendBuilderS) (p : String) (iv : Int) : BackendBuilderS :=
  { bb with healthPath := p, healthInterval := iv }

/-- The server-parsing loop inside the multi-server branch of `Build`
(backend.go): parse each URL in order, panicking on the first failure with
the Go message, and create one `Server{URL: u, Healthy: true}` per URL. -/
def parseServers (parse : String → Except String String) :
    List String → GoResult (List Server)
  | [] => .ok []
  | u :: rest =>
    match parse u with
    | .error e => .panicked ("invalid server URL: " ++ e)
    | .ok url =>
      match parseServers parse rest with
      | .panicked e => .panicked e
      | .ok svs => .ok ({ url := url, healthy := true } :: svs)

/-- The `healthCheck` field `Build` attaches: only when a health path was
configured (backend.go, the `bb.healthPath != ""` guard). -/
def mkHealthChecker (bb : BackendBuilderS) : Option HealthChecker :=
  if bb.healthPath == "" then none
  else some { path := bb.healthPath, interval := bb.healthInterval }

/-- `defaultBackendBuilder.Build` (backend.go).  An empty server list or a
URL rejected by `url.Parse` is a `panic` (the signature has no error
channel); the registry write `bb.proxy.backends[bb.name] = backend`
happens only after all parsing has succeeded, so on a panic the registry
is untouched — here that is visible as the state being threaded only
through the `ok` result. -/
def buildBackend (parse : String → Except String String)
    (bb : BackendBuilderS) (st : ProxyState) :
    GoResult (Backend × ProxyState) :=
  match bb.servers with
  | [] => .panicked "no servers defined for backend"
  | [u] =>
    match parse u with
    | .error e => .panicked ("invalid server URL: " ++ e)
    | .ok url =>
      let b := Backend.simple bb.name url
      .ok (b, { st with backends := goMapInsert st.backends bb.name b })
  | _ :: _ :: _ =>
    match parseServers parse bb.servers with
    | .panicked e => .panicked e
    | .ok svs =>
      let b := Backend.cluster bb.name svs bb.loadBalancer (mkHealthChecker bb)
      .ok (b, { st with backends := goMapInsert st.backends bb.name b })

/-- `createSimpleBackend` (backend.go), used by `RouteBuilder.ToURL`: a
parse failure is a panic with the `"invalid URL: "` message. -/
def createSimpleBackend (parse : String → Except String String)
    (name urlStr : String) : GoResult Backend :=
  match parse urlStr with
  | .error e => .panicked ("invalid URL: " ++ e)
  | .ok url => .ok (.simple name url)

/-! ### `http.ServeMux` (standard-library collaborator, embedded concretely) -/

/-- `strings.HasPrefix` on character lists (first argument: the candidate
starting segment, second: the full list). -/
def listPre : List Char → List Char → Bool
  | [], _ => true
  | _ :: _, [] => false
  | a :: as, b :: bs => a == b && listPre as bs

/-- `strings.HasPrefix(s, pre)`. -/
def goHasPre (s pre : String) : Bool := listPre pre.toList s.toList

/-- Length of a string in characters (equals the Go byte length on the
ASCII patterns and paths used throughout). -/
def strLen (s : String) : Nat := s.toList.length

/-- Whether the last character of a string is a slash (`pattern[n-1] == '/'`). -/
def lastIsSlash (s : String) : Bool :=
  match s.toList.getLast? with
  | some c => c == '/'
  | none => false

/-- `pathMatch(pattern, path)` from `net/http`: an empty pattern matches
nothing; a pattern ending in a slash matches every path it starts; any
other pattern matches only exactly. -/
def pathMatch (pat path : String) : Bool :=
  if strLen pat == 0 then false
  else if lastIsSlash pat then goHasPre path pat
  else pat == path

/-- A `ServeMux` value: the registered pattern/handler pairs in
registration order. -/
abbrev Mux := List (String × Handler)

/-- `ServeMux.Handle` (net/http): panics on an empty pattern and on a
duplicate pattern, otherwise records the pair.  (The nil-handler panic is
raised before calling this, in `registerAll`.) -/
def muxHandle (m : Mux) (pat : String) (h : Handler) : GoResult Mux :=
  if pat == "" then .panicked "http: invalid pattern"
  else if m.any (fun e => e.1 == pat) then
    .panicked ("http: multiple registrations for " ++ pat)
  else .ok (m ++ [(pat, h)])

/-- The exact-pattern lookup `mux.m[path]` of `ServeMux.match`. -/
def findExact (m : Mux) (path : String) : Option (String × Handler) :=
  m.find? (fun e => e.1 == path)

/-- Whether a mux entry is a slash-terminated pattern the path starts
with (the membership test of the `es` scan in `ServeMux.match`). -/
def slashMatch (path : String) (e : String × Handler) : Bool :=
  lastIsSlash e.1 && goHasPre path e.1

/-- Fold step for the slash-pattern scan: keep whichever of the entry and
the current best has the longer pattern. -/
def betterSlash (path : String) (e : String × Handler)
    (r : Option (String × Handler)) : Option (String × Handler) :=
  if slashMatch path e then
    match r with
    | none => some e
    | some b => if strLen b.1 < strLen e.1 then some e else some b
  else r

/-- The slash-terminated-pattern scan of `ServeMux.match`: Go keeps those
patterns sorted by length and returns the first — i.e. longest — whose
prefix the path carries.  Ties between distinct equal-length patterns both
matching one path are impossible, so taking the maximum is equivalent. -/
def bestSlash (path : String) : Mux → Option (String × Handler)
  | [] => none
  | e :: rest => betterSlash path e (bestSlash path rest)

/-- `ServeMux.match`: exact entry first, else the longest slash-terminated
pattern the path starts with. -/
def muxMatch (m : Mux) (path : String) : Option (String × Handler) :=
  match findExact m path with
  | some e => some e
  | none => bestSlash path m

/-- `ServeMux.shouldRedirectRLocked` (host part omitted): redirect when the
path itself is not registered, is nonempty, does not already end in a
slash, and `path ++ "/"` is registered. -/
def shouldRedirect (m : Mux) (path : String) : Bool :=
  !(m.any (fun e => e.1 == path)) && !(strLen path == 0)
    && m.any (fun e => e.1 == path ++ "/") && !(lastIsSlash path)

/-- `ServeMux.ServeHTTP` on an already-clean path: the trailing-slash
redirect if applicable, else the matched handler, else the
`http.NotFound` 404 response. -/
def muxServe (m : Mux) (r : Request) : HResp × Trace :=
  if shouldRedirect m r.path then (.redirect 301 (r.path ++ "/"), [])
  else
    match muxMatch m r.path with
    | some e => e.2 r
    | none => (.errResp "404 page not found" 404, [])

/-! ### `buildHandler` and the server lifecycle (proxy.go, router.go) -/

/-- The middleware-application loops of `buildHandler` (router.go): the
loop `for i := len(mws)-1; i >= 0; i--; handler = mws[i](handler)` wraps
the last middleware innermost and the first outermost. -/
def wrapMws (mws : List Middleware) (h : Handler) : Handler :=
  mws.foldr (fun mw acc => mw acc) h

/-- `handler := route.handler; if handler == nil && route.backend != nil { handler = route.backend }`
(router.go). -/
def resolveHandler (route : Route) : Option Handler :=
  match route.handler with
  | some h => some h
  | none => route.backend.map backendHandler

/-- The loop body of `buildHandler` over `p.routes`: resolve the base
handler, wrap the route middlewares then the global middlewares, register
on the mux.  A route with neither handler nor backend registers nil — in
Go a panic in `mux.Handle` — raised here before wrapping (the wrapped-nil
corner, unreachable through the builder API, differs only in when the nil
is hit). -/
def registerAll (gmws : List Middleware) : Mux → List Route → GoResult Mux
  | m, [] => .ok m
  | m, route :: rest =>
    match resolveHandler route with
    | none => .panicked "http: nil handler"
    | some h =>
      match muxHandle m route.pattern (wrapMws gmws (wrapMws route.middlewares h)) with
      | .panicked e => .panicked e
      | .ok m2 => registerAll gmws m2 rest

/-- `defaultProxy.buildHandler` (router.go). -/
def buildHandler (st : ProxyState) : GoResult Mux :=
  registerAll st.middlewares [] st.routes

/-- `defaultProxy.ListenAndServe` (proxy.go): builds the handler once and
installs it in the `http.Server`; the blocking accept loop itself is the
transport collaborator.  A panic in `buildHandler` escapes before the
server is installed. -/
def listenAndServe (st : ProxyState) : GoResult ProxyState :=
  match buildHandler st with
  | .panicked e => .panicked e
  | .ok m => .ok { st with server := some m }

/-- One live dispatch: the running server (if any) serves the request
through the mux snapshot installed by `listenAndServe`. -/
def serveRequest (st : ProxyState) (path : String) : Option (HResp × Trace) :=
  st.server.map (fun m => muxServe m { path := path })

/-- A sequence of `ServeHTTP` calls against one backend, threading the
(never modified) backend state. -/
def serveMany (b : Backend) (rs : List Request) : Backend :=
  rs.foldl (fun b r => (serveHTTP b r).2) b

/-- All health entries a successfully built backend reports are `true`. -/
def allHealthyResult : GoResult (Backend × ProxyState) → Bool
  | .ok (b, _) => (healthStatus b).all (fun e => e.2.healthy)
  | .panicked _ => true

/-! ### Test fixtures (concrete collaborator instances and inputs) -/

/-- A `url.Parse` stand-in that accepts every string unchanged; used where
a claim needs some concrete parser. -/
def okParse : String → Except String String := fun s => .ok s

/-- A user `LoadBalancer` implementation that returns the first server of
the candidate list, ignoring health — admissible for the interface, which
only asks for an error when the pool is empty. -/
def headLB : LoadBalancer :=
  { select := fun servers _ =>
      match servers with
      | [] => .error "no servers available"
      | s :: _ => .ok s }

/-- An unhealthy server fixture. -/
def sU : Server := { url := "http://u", healthy := false }

/-- A healthy server fixture. -/
def sH : Server := { url := "http://h", healthy := true }

/-- Simple backend fixture forwarding to `http://x`. -/
def bx : Backend := .simple "x" "http://x"

/-- Simple backend fixture forwarding to `http://y`. -/
def byB : Backend := .simple "y" "http://y"

/-- A middleware that records its entry before and its exit after the
inner handler, labelled `l`; the observation instrument of the
middleware-ordering scenario. -/
def traceMW (l : String) : Middleware :=
  fun h r => ((h r).1, (String.append "enter:" l) :: ((h r).2 ++ [String.append "exit:" l]))

/-- A `url.Parse` stand-in rejecting the single string `"bad"` with the Go
error text for a URL missing its scheme. -/
def badParse : String → Except String String :=
  fun s => if s == "bad" then .error "missing protocol scheme" else .ok s

/-- An opaque user handler fixture. -/
def hDemo : Handler := fun _ => (.custom "demo", [])

/-- Proxy state after registering the pattern `/api` twice (both `To`
calls succeed and append). -/
def dupState : ProxyState :=
  (routeTo (routeTo emptyProxy "/api" [] bx).2 "/api" [] bx).2

/-- Proxy state of the end-to-end scenario with the literal patterns of
the spec sentence: `/api` → bx and `/api/users` → byB. -/
def apiExactProxy : ProxyState :=
  (routeTo (routeTo emptyProxy "/api" [] bx).2 "/api/users" [] byB).2

/-- Proxy state of the same scenario with subtree (slash-terminated)
patterns: `/api/` → bx and `/api/users/` → byB. -/
def apiSlashProxy : ProxyState :=
  (routeTo (routeTo emptyProxy "/api/" [] bx).2 "/api/users/" [] byB).2

/-- Base backend behind the middleware-ordering scenario. -/
def baseBackend : Backend := .simple "base" "http://base"

/-- Proxy with global tracing middlewares labelled `gs` and one route
`/t/` carrying route tracing middlewares labelled `rs`. -/
def traceProxy (gs rs : List String) : ProxyState :=
  (routeTo (useMW emptyProxy (gs.map traceMW)) "/t/" (rs.map traceMW) baseBackend).2

/-- Proxy state with one route `/a/` → bx registered before the server
starts. -/
def preStart : ProxyState := (routeTo emptyProxy "/a/" [] bx).2

/-- The mux `listenAndServe` builds from `preStart`. -/
def muxA : Mux := [("/a/", backendHandler bx)]

/-- Builder with two well-formed server URLs and no load balancer. -/
def bbW : BackendBuilderS :=
  { name := "w", servers := ["http://a", "http://b"], loadBalancer := none,
    healthPath := "", healthInterval := 0 }

/-- The cluster backend `Build` produces from `bbW`. -/
def bW : Backend :=
  .cluster "w" [{ url := "http://a", healthy := true },
                { url := "http://b", healthy := true }] none none

/-- The proxy state after registering `bW` under its name. -/
def stW : ProxyState := { emptyProxy with backends := [("w", bW)] }

/-- Builder listing the same server URL twice. -/
def bbDup : BackendBuilderS :=
  { name := "dup", servers := ["http://a", "http://a"], loadBalancer := none,
    healthPath := "", healthInterval := 0 }

/-- The cluster backend `Build` produces from `bbDup`: two `Server`
values sharing one URL string. -/
def bDup : Backend :=
  .cluster "dup" [{ url := "http://a", healthy := true },
                  { url := "http://a", healthy := true }] none none

/-! ### Helper lemmas -/

lemma listPre_length (p s : List Char) (h : listPre p s = true) : p.length ≤ s.length := by
  induction p generalizing s with
  | nil => simp
  | cons a as ih =>
    cases s with
    | nil => simp [listPre] at h
    | cons b bs =>
      simp only [listPre, Bool.and_eq_true] at h
      simpa using ih bs h.2

lemma listPre_refl (l : List Char) : listPre l l = true := by
  induction l with
  | nil => rfl
  | cons a as ih => simp [listPre, ih]

lemma goHasPre_len (s pre : String) (h : goHasPre s pre = true) : strLen pre ≤ strLen s :=
  listPre_length _ _ h

lemma goHasPre_refl (s : String) : goHasPre s s = true := listPre_refl _

lemma pathMatch_le (q path : String) (h : pathMatch q path = true) : strLen q ≤ strLen path := by
  unfold pathMatch at h
  split at h
  · simp at h
  · split at h
    · exact goHasPre_len _ _ h
    · simp only [beq_iff_eq] at h
      subst h
      exact le_refl _

lemma pathMatch_pat_ne (q path : String) (h : pathMatch q path = true) : strLen q ≠ 0 := by
  unfold pathMatch at h
  split at h
  · simp at h
  · rename_i hz
    simpa using hz

lemma pathMatch_path_ne (q path : String) (h : pathMatch q path = true) : strLen path ≠ 0 := by
  have h1 := pathMatch_le q path h
  have h2 := pathMatch_pat_ne q path h
  omega

lemma pathMatch_self (path : String) (hne : strLen path ≠ 0) : pathMatch path path = true := by
  unfold pathMatch
  rw [if_neg (by simpa using hne)]
  split
  · exact goHasPre_refl path
  · simp

lemma slashMatch_pathMatch (path : String) (e : String × Handler)
    (h : slashMatch path e = true) : pathMatch e.1 path = true := by
  simp only [slashMatch, Bool.and_eq_true] at h
  unfold pathMatch
  rw [if_neg, if_pos h.1]
  · exact h.2
  · intro hz
    simp only [beq_iff_eq] at hz
    have h1 := h.1
    unfold lastIsSlash at h1
    have : e.1.toList = [] := List.length_eq_zero.mp hz
    rw [this] at h1
    simp [List.getLast?] at h1

lemma pathMatch_cases (q path : String) (h : pathMatch q path = true) :
    (lastIsSlash q = true ∧ goHasPre path q = true) ∨ q = path := by
  unfold pathMatch at h
  split at h
  · simp at h
  · split at h
    · exact Or.inl ⟨by assumption, h⟩
    · simp only [beq_iff_eq] at h
      exact Or.inr h

lemma findExact_some (m : Mux) (path : String) (e : String × Handler)
    (h : findExact m path = some e) : e ∈ m ∧ e.1 = path := by
  refine ⟨List.mem_of_find?_eq_some h, ?_⟩
  have := List.find?_some h
  simpa using this

lemma findExact_none (m : Mux) (path : String) (h : findExact m path = none) :
    ∀ q ∈ m, q.1 ≠ path := by
  intro q hq
  have := List.find?_eq_none.mp h q hq
  simpa using this

lemma betterSlash_elim (path : String) (a e : String × Handler)
    (r : Option (String × Handler)) (h : betterSlash path a r = some e) :
    (e = a ∧ slashMatch path a = true) ∨ r = some e := by
  by_cases hs : slashMatch path a = true
  · cases r with
    | none =>
      simp only [betterSlash, hs, if_true] at h
      cases h
      exact Or.inl ⟨rfl, hs⟩
    | some b =>
      simp only [betterSlash, hs, if_true] at h
      by_cases hlt : strLen b.1 < strLen a.1
      · rw [if_pos hlt] at h
        cases h
        exact Or.inl ⟨rfl, hs⟩
      · rw [if_neg hlt] at h
        cases h
        exact Or.inr rfl
  · simp only [betterSlash, hs, if_false] at h
    exact Or.inr h

lemma betterSlash_ge (path : String) (a e b : String × Handler)
    (h : betterSlash path a (some b) = some e) : strLen b.1 ≤ strLen e.1 := by
  by_cases hs : slashMatch path a = true
  · simp only [betterSlash, hs, if_true] at h
    by_cases hlt : strLen b.1 < strLen a.1
    · rw [if_pos hlt] at h
      cases h
      exact Nat.le_of_lt hlt
    · rw [if_neg hlt] at h
      cases h
      exact le_refl _
  · simp only [betterSlash, hs, if_false] at h
    cases h
    exact le_refl _

lemma betterSlash_ge_self (path : String) (a e : String × Handler)
    (r : Option (String × Handler)) (ha : slashMatch path a = true)
    (h : betterSlash path a r = some e) : strLen a.1 ≤ strLen e.1 := by
  cases r with
  | none =>
    simp only [betterSlash, ha, if_true] at h
    cases h
    exact le_refl _
  | some b =>
    simp only [betterSlash, ha, if_true] at h
    by_cases hlt : strLen b.1 < strLen a.1
    · rw [if_pos hlt] at h
      cases h
      exact le_refl _
    · rw [if_neg hlt] at h
      cases h
      exact Nat.le_of_not_lt hlt

lemma betterSlash_isSome_self (path : String) (a : String × Handler)
    (r : Option (String × Handler)) (ha : slashMatch path a = true) :
    ∃ e, betterSlash path a r = some e := by
  cases r with
  | none => exact ⟨a, by simp [betterSlash, ha]⟩
  | some b =>
    simp only [betterSlash, ha, if_true]
    by_cases hlt : strLen b.1 < strLen a.1
    · exact ⟨a, by rw [if_pos hlt]⟩
    · exact ⟨b, by rw [if_neg hlt]⟩

lemma betterSlash_isSome_r (path : String) (a b : String × Handler) :
    ∃ e, betterSlash path a (some b) = some e := by
  by_cases hs : slashMatch path a = true
  · exact betterSlash_isSome_self path a _ hs
  · exact ⟨b, by simp [betterSlash, hs]⟩

lemma bestSlash_mem (path : String) (m : Mux) (e : String × Handler)
    (h : bestSlash path m = some e) : e ∈ m ∧ slashMatch path e = true := by
  induction m with
  | nil => simp [bestSlash] at h
  | cons a rest ih =>
    unfold bestSlash at h
    rcases betterSlash_elim path a e _ h with ⟨heq, hsl⟩ | hrec
    · subst heq
      exact ⟨List.mem_cons_self _ _, hsl⟩
    · obtain ⟨hm, hs⟩ := ih hrec
      exact ⟨List.mem_cons_of_mem _ hm, hs⟩

lemma bestSlash_max (path : String) (m : Mux) (q : String × Handler)
    (hq : q ∈ m) (hs : slashMatch path q = true) :
    ∃ e, bestSlash path m = some e ∧ strLen q.1 ≤ strLen e.1 := by
  induction m with
  | nil => simp at hq
  | cons a rest ih =>
    rcases List.mem_cons.mp hq with heq | hmem
    · subst heq
      obtain ⟨e, he⟩ := betterSlash_isSome_self path q (bestSlash path rest) hs
      exact ⟨e, he, betterSlash_ge_self path q e _ hs he⟩
    · obtain ⟨b, hb, hble⟩ := ih hmem
      obtain ⟨e, he⟩ := betterSlash_isSome_r path a b
      rw [← hb] at he
      refine ⟨e, by unfold bestSlash; exact he, ?_⟩
      rw [hb] at he
      exact le_trans hble (betterSlash_ge path a e b he)

lemma muxMatch_longest (m : Mux) (path : String) (e : String × Handler)
    (h : muxMatch m path = some e) (hne : strLen path ≠ 0) :
    e ∈ m ∧ pathMatch e.1 path = true ∧
      ∀ q ∈ m, pathMatch q.1 path = true → strLen q.1 ≤ strLen e.1 := by
  unfold muxMatch at h
  cases hf : findExact m path with
  | some x =>
    rw [hf] at h
    cases h
    obtain ⟨hmem, hkey⟩ := findExact_some m path e hf
    refine ⟨hmem, ?_, ?_⟩
    · rw [hkey]
      exact pathMatch_self path hne
    · intro q hq hmatch
      have := pathMatch_le q.1 path hmatch
      rw [hkey]
      exact this
  | none =>
    rw [hf] at h
    obtain ⟨hmem, hslash⟩ := bestSlash_mem path m e h
    refine ⟨hmem, slashMatch_pathMatch path e hslash, ?_⟩
    intro q hq hmatch
    rcases pathMatch_cases q.1 path hmatch with ⟨hq1, hq2⟩ | hqeq
    · obtain ⟨e2, he2, hle⟩ := bestSlash_max path m q hq (by simp [slashMatch, hq1, hq2])
      rw [he2] at h
      cases h
      exact hle
    · exact absurd hqeq (findExact_none m path hf q hq)

lemma muxMatch_exists (m : Mux) (path : String) (p : String × Handler)
    (hp : p ∈ m) (hm : pathMatch p.1 path = true) :
    ∃ e, muxMatch m path = some e := by
  unfold muxMatch
  cases hf : findExact m path with
  | some x => exact ⟨x, rfl⟩
  | none =>
    rcases pathMatch_cases p.1 path hm with ⟨h1, h2⟩ | heq
    · obtain ⟨e, he, _⟩ := bestSlash_max path m p hp (by simp [slashMatch, h1, h2])
      exact ⟨e, he⟩
    · exact absurd heq (findExact_none m path hf p hp)

lemma wrap_trace (ls : List String) (h : Handler) (r : Request) :
    wrapMws (ls.map traceMW) h r =
      ((h r).1,
        (ls.map (fun l => String.append "enter:" l)) ++ (h r).2
          ++ (ls.reverse.map (fun l => String.append "exit:" l))) := by
  induction ls with
  | nil => simp [wrapMws]
  | cons a as ih =>
    show traceMW a (wrapMws (as.map traceMW) h) r = _
    rw [traceMW]
    simp only [ih]
    simp [List.append_assoc]

lemma serveHTTP_state (b : Backend) (r : Request) : (serveHTTP b r).2 = b := by
  cases b with
  | simple n u => rfl
  | cluster n svs lb hc =>
    cases lb with
    | none => rfl
    | some l =>
      show (match l.select svs r with
        | .error _ => (HResp.errResp "No available backend" 503, Backend.cluster n svs (some l) hc)
        | .ok s => (HResp.proxied s.url, Backend.cluster n svs (some l) hc)).2 = _
      cases l.select svs r <;> rfl

lemma serveMany_state (b : Backend) (rs : List Request) : serveMany b rs = b := by
  induction rs generalizing b with
  | nil => rfl
  | cons r rest ih =>
    show serveMany (serveHTTP b r).2 rest = b
    rw [serveHTTP_state, ih]

lemma goMapInsert_fresh {α : Type} (m : List (String × α)) (k : String) (v : α)
    (h : m.any (fun e => e.1 == k) = false) : goMapInsert m k v = m ++ [(k, v)] := by
  simp only [goMapInsert, h]
  simp

lemma goMapInsert_all {α : Type} (p : α → Bool) (m : List (String × α)) (k : String) (v : α)
    (hm : m.all (fun e => p e.2) = true) (hv : p v = true) :
    (goMapInsert m k v).all (fun e => p e.2) = true := by
  unfold goMapInsert
  split
  · rw [List.all_eq_true] at hm ⊢
    intro e he
    obtain ⟨x, hx, hxe⟩ := List.mem_map.mp he
    by_cases hk : x.1 == k
    · rw [if_pos hk] at hxe
      subst hxe
      exact hv
    · rw [if_neg hk] at hxe
      subst hxe
      exact hm x hx
  · rw [List.all_append]
    simp [hm, hv]

lemma healthFold_all (svs : List Server) (acc : List (String × HealthStatusR))
    (ha : acc.all (fun e => e.2.healthy) = true)
    (hs : ∀ s ∈ svs, s.healthy = true) :
    (svs.foldl (fun m s => goMapInsert m s.url { healthy := s.healthy }) acc).all
      (fun e => e.2.healthy) = true := by
  induction svs generalizing acc with
  | nil => simpa using ha
  | cons s rest ih =>
    show (rest.foldl _ (goMapInsert acc s.url { healthy := s.healthy })).all _ = true
    refine ih _ ?_ (fun t ht => hs t (List.mem_cons_of_mem _ ht))
    exact goMapInsert_all _ acc s.url _ ha (hs s (List.mem_cons_self _ _))

lemma healthFold_nodup (svs : List Server) (acc : List (String × HealthStatusR))
    (hd : ∀ s ∈ svs, acc.any (fun e => e.1 == s.url) = false)
    (hn : (svs.map (fun s => s.url)).Nodup) :
    svs.foldl (fun m s => goMapInsert m s.url { healthy := s.healthy }) acc
      = acc ++ svs.map (fun s => (s.url, { healthy := s.healthy })) := by
  induction svs generalizing acc with
  | nil => simp
  | cons s rest ih =>
    show rest.foldl _ (goMapInsert acc s.url { healthy := s.healthy }) = _
    rw [goMapInsert_fresh _ _ _ (hd s (List.mem_cons_self _ _))]
    rw [List.map_cons, List.nodup_cons] at hn
    rw [ih _ ?_ hn.2]
    · simp
    · intro t ht
      rw [List.any_append]
      have h1 : acc.any (fun e => e.1 == t.url) = false := hd t (List.mem_cons_of_mem _ ht)
      have h2 : s.url ≠ t.url := by
        intro hcon
        exact hn.1 (hcon ▸ List.mem_map_of_mem (fun s => s.url) ht)
      simp [h1, h2]

lemma parseServers_ok_healthy (parse : String → Except String String)
    (l : List String) (svs : List Server)
    (h : parseServers parse l = .ok svs) : ∀ s ∈ svs, s.healthy = true := by
  induction l generalizing svs with
  | nil =>
    cases h
    simp
  | cons u rest ih =>
    unfold parseServers at h
    cases hp : parse u with
    | error e => rw [hp] at h; cases h
    | ok url =>
      rw [hp] at h
      cases hr : parseServers parse rest with
      | panicked e => rw [hr] at h; cases h
      | ok svs2 =>
        rw [hr] at h
        cases h
        intro s hs
        rcases List.mem_cons.mp hs with heq | hmem
        · subst heq; rfl
        · exact ih svs2 hr s hmem

lemma parseServers_err (parse : String → Except String String) (l : List String)
    (h : ∃ u ∈ l, ∃ e, parse u = .error e) :
    ∃ msg, parseServers parse l = .panicked msg := by
  induction l with
  | nil => simp at h
  | cons u rest ih =>
    obtain ⟨u2, hu2, e, he⟩ := h
    rcases List.mem_cons.mp hu2 with heq | hmem
    · subst heq
      exact ⟨"invalid server URL: " ++ e, by unfold parseServers; rw [he]⟩
    · cases hp : parse u with
      | error e2 => exact ⟨"invalid server URL: " ++ e2, by unfold parseServers; rw [hp]⟩
      | ok url =>
        obtain ⟨msg, hmsg⟩ := ih ⟨u2, hmem, e, he⟩
        refine ⟨msg, ?_⟩
        unfold parseServers
        rw [hp, hmsg]

/-! ### Claim theorems -/

/-- C1, counterexample: the claim says `ServeHTTP` hands `Select` only the
health-filtered candidate set, so an unhealthy server is never selected
while a healthy one exists.  On the code, `Select` receives the full
`b.servers`: with an unhealthy first server and a healthy second, a
load balancer returning the head of its candidate list makes `ServeHTTP`
forward to the unhealthy server even though a healthy one is present. -/
theorem C1_counterexample :
    (serveHTTP (Backend.cluster "api" [sU, sH] (some headLB) none) { path := "/p" }).1
      = .proxied sU.url
    ∧ sU.healthy = false ∧ sH.healthy = true
    ∧ [sU, sH].filter (fun s => s.healthy) = [sH]
    ∧ sU ∈ backendServers (Backend.cluster "api" [sU, sH] (some headLB) none) := by
  refine ⟨rfl, rfl, rfl, rfl, ?_⟩
  simp [backendServers]

/-- C1, amended: a cluster `ServeHTTP` call passes the complete,
unfiltered `b.servers` list to `Select` and forwards to whatever server
`Select` returns on that list — healthy or not; exclusion of unhealthy
servers is entirely the LoadBalancer implementation's responsibility. -/
theorem C1_amended_serve_unfiltered (name : String) (servers : List Server)
    (l : LoadBalancer) (hc : Option HealthChecker) (r : Request) (s : Server)
    (hsel : l.select servers r = .ok s) :
    (serveHTTP (Backend.cluster name servers (some l) hc) r).1 = .proxied s.url := by
  simp only [serveHTTP]
  rw [hsel]

/-- C1, witness: the amended theorem applied to the head-picking
load balancer over an unhealthy-then-healthy server list. -/
theorem C1_witness :
    headLB.select [sU, sH] { path := "/p" } = .ok sU
    ∧ (serveHTTP (Backend.cluster "api" [sU, sH] (some headLB) none) { path := "/p" }).1
        = .proxied sU.url :=
  ⟨rfl, C1_amended_serve_unfiltered "api" [sU, sH] headLB none { path := "/p" } sU rfl⟩

/-- C2, counterexample: registering the pattern `/api` twice does not fail
and does not leave the table unchanged — both `To` calls append, so the
table afterwards holds two `/api` routes. -/
theorem C2_counterexample :
    dupState.routes.map (fun r => r.pattern) = ["/api", "/api"]
    ∧ dupState.routes.length = 2 := ⟨rfl, rfl⟩

/-- C2, amended: `To` unconditionally appends the new route (no duplicate
check, no error channel at registration time); the duplicate surfaces
later as the `ServeMux` panic `http: multiple registrations for /api`
when `buildHandler` runs at server start. -/
theorem C2_amended :
    (∀ (st : ProxyState) (pat : String) (mws : List Middleware) (b : Backend),
        (routeTo st pat mws b).2.routes
          = st.routes ++ [{ pattern := pat, backend := some b,
                            handler := none, middlewares := mws }])
    ∧ buildHandler dupState = .panicked "http: multiple registrations for /api" :=
  ⟨fun _ _ _ _ => rfl, rfl⟩

/-- C3, counterexample: with the literal patterns `/api` and `/api/users`
registered (spec scenario), `ServeMux` gives non-slash-terminated patterns
exact-match semantics only, so requests to `/api/users/123` and
`/api/status` match neither route and both yield the 404 response instead
of dispatching to the claimed routes. -/
theorem C3_counterexample :
    ∃ m, buildHandler apiExactProxy = .ok m
      ∧ apiExactProxy.routes.map (fun r => r.pattern) = ["/api", "/api/users"]
      ∧ muxServe m { path := "/api/users/123" } = (.errResp "404 page not found" 404, [])
      ∧ muxServe m { path := "/api/status" } = (.errResp "404 page not found" 404, []) := by
  refine ⟨_, rfl, rfl, rfl, rfl⟩

/-- C3, amended: among the patterns that match in the `ServeMux` sense
(exact for patterns without a trailing slash, subtree for slash-terminated
ones) the longest always wins and its handler serves the request (absent
the trailing-slash redirect); the spec scenario holds once the patterns
are written as subtrees `/api/` and `/api/users/`. -/
theorem C3_amended_longest_match :
    (∀ (m : Mux) (path : String) (q : String × Handler),
        q ∈ m → pathMatch q.1 path = true → shouldRedirect m path = false →
        ∃ e, e ∈ m ∧ pathMatch e.1 path = true
          ∧ (∀ q2 ∈ m, pathMatch q2.1 path = true → strLen q2.1 ≤ strLen e.1)
          ∧ muxServe m { path := path } = e.2 { path := path })
    ∧ (∃ m, buildHandler apiSlashProxy = .ok m
        ∧ muxServe m { path := "/api/users/123" } = (.proxied "http://y", [])
        ∧ muxServe m { path := "/api/status" } = (.proxied "http://x", [])) := by
  constructor
  · intro m path q hq hmatch hred
    obtain ⟨e, he⟩ := muxMatch_exists m path q hq hmatch
    obtain ⟨hmem, hpm, hmax⟩ :=
      muxMatch_longest m path e he (pathMatch_path_ne q.1 path hmatch)
    refine ⟨e, hmem, hpm, hmax, ?_⟩
    unfold muxServe
    rw [hred]
    simp only [Bool.false_eq_true, if_false]
    rw [he]
  · refine ⟨_, rfl, rfl, rfl⟩

/-- C3, witness: the longest-match theorem applied to a one-entry mux. -/
theorem C3_witness :
    ("/a/", hDemo) ∈ ([("/a/", hDemo)] : Mux)
    ∧ pathMatch "/a/" "/a/x" = true
    ∧ shouldRedirect [("/a/", hDemo)] "/a/x" = false
    ∧ ∃ e, e ∈ ([("/a/", hDemo)] : Mux) ∧ pathMatch e.1 "/a/x" = true
        ∧ (∀ q2 ∈ ([("/a/", hDemo)] : Mux),
            pathMatch q2.1 "/a/x" = true → strLen q2.1 ≤ strLen e.1)
        ∧ muxServe [("/a/", hDemo)] { path := "/a/x" } = e.2 { path := "/a/x" } :=
  ⟨List.mem_singleton.mpr rfl, rfl, rfl,
   C3_amended_longest_match.1 [("/a/", hDemo)] "/a/x" ("/a/", hDemo)
     (List.mem_singleton.mpr rfl) rfl rfl⟩

/-- C4: for arbitrary global middleware labels `gs` and route middleware
labels `rs`, the handler `buildHandler` assembles observes the
request-entry order `gs` then `rs` (first-registered global outermost)
and the response-exit order that is its exact reverse. -/
theorem C4_middleware_order (gs rs : List String) :
    ∃ m, buildHandler (traceProxy gs rs) = .ok m
      ∧ muxServe m { path := "/t/req" }
          = (.proxied "http://base",
              ((gs ++ rs).map (fun l => String.append "enter:" l))
                ++ (((gs ++ rs).reverse).map (fun l => String.append "exit:" l))) := by
  refine ⟨_, rfl, ?_⟩
  show wrapMws (gs.map traceMW) (wrapMws (rs.map traceMW) (backendHandler baseBackend))
      { path := "/t/req" } = _
  rw [wrap_trace, wrap_trace]
  simp [backendHandler, serveHTTP, baseBackend, List.reverse_append, List.append_assoc]

/-- C5, counterexample: a cluster whose healthy candidate set is empty is
claimed to always fail with 503; with a load balancer that ignores health,
`ServeHTTP` instead forwards to the (unhealthy) server `Select` returned
— the core performs no health filtering of its own. -/
theorem C5_counterexample :
    [sU].filter (fun s => s.healthy) = []
    ∧ serveHTTP (Backend.cluster "api" [sU] (some headLB) none) { path := "/p" }
        = (.proxied "http://u", Backend.cluster "api" [sU] (some headLB) none) :=
  ⟨rfl, rfl⟩

/-- C5, amended: the fixed 503 response with body `No available backend`
is produced exactly when the LoadBalancer's `Select` returns an error; in
that case nothing is forwarded, no second selection is attempted, and the
backend state is unchanged. -/
theorem C5_amended_503_on_select_error (name : String) (servers : List Server)
    (hc : Option HealthChecker) (l : LoadBalancer) (r : Request) (e : String)
    (hsel : l.select servers r = .error e) :
    serveHTTP (Backend.cluster name servers (some l) hc) r
      = (.errResp "No available backend" 503, Backend.cluster name servers (some l) hc) := by
  simp only [serveHTTP]
  rw [hsel]

/-- C5, witness: the amended theorem applied to the head-picking
load balancer over an empty server list. -/
theorem C5_witness :
    headLB.select [] { path := "/p" } = .error "no servers available"
    ∧ serveHTTP (Backend.cluster "api" [] (some headLB) none) { path := "/p" }
        = (.errResp "No available backend" 503, Backend.cluster "api" [] (some headLB) none) :=
  ⟨rfl, C5_amended_503_on_select_error "api" [] none headLB { path := "/p" }
    "no servers available" rfl⟩

/-- C6, counterexample: building a backend with an empty server list is
claimed to return a configuration error value to the caller; the code
instead panics (`Build` has no error channel at all). -/
theorem C6_counterexample :
    buildBackend okParse (backendBuilder "api") emptyProxy
      = .panicked "no servers defined for backend" := rfl

/-- C6, amended: a registration with an empty server list or a URL the
parser rejects fails synchronously at `Build` time with a Go panic (not
an error return); the registry is untouched because the write follows all
parsing.  `createSimpleBackend` behaves likewise for `ToURL`. -/
theorem C6_amended :
    (∀ (parse : String → Except String String) (bb : BackendBuilderS) (st : ProxyState),
        (bb.servers = [] ∨ ∃ u ∈ bb.servers, ∃ e, parse u = .error e) →
        ∃ msg, buildBackend parse bb st = .panicked msg)
    ∧ (∀ (parse : String → Except String String) (name u e : String),
        parse u = .error e →
        createSimpleBackend parse name u = .panicked ("invalid URL: " ++ e)) := by
  constructor
  · intro parse bb st h
    rcases hsv : bb.servers with _ | ⟨u1, _ | ⟨u2, us⟩⟩
    · exact ⟨"no servers defined for backend", by simp [buildBackend, hsv]⟩
    · rcases h with hemp | ⟨u, hu, e, he⟩
      · rw [hsv] at hemp
        cases hemp
      · rw [hsv] at hu
        have : u = u1 := by simpa using hu
        subst this
        exact ⟨"invalid server URL: " ++ e, by simp [buildBackend, hsv, he]⟩
    · rcases h with hemp | ⟨u, hu, e, he⟩
      · rw [hsv] at hemp
        cases hemp
      · rw [hsv] at hu
        obtain ⟨msg, hmsg⟩ := parseServers_err parse (u1 :: u2 :: us) ⟨u, hu, e, he⟩
        exact ⟨msg, by simp [buildBackend, hsv, hmsg]⟩
  · intro parse name u e he
    simp [createSimpleBackend, he]

/-- C6, witness: the amended theorem applied to an empty builder and to a
parser rejecting the string `bad`. -/
theorem C6_witness :
    ((backendBuilder "api").servers = []
      ∨ ∃ u ∈ (backendBuilder "api").servers, ∃ e, okParse u = .error e)
    ∧ (∃ msg, buildBackend okParse (backendBuilder "api") emptyProxy = .panicked msg)
    ∧ badParse "bad" = .error "missing protocol scheme"
    ∧ createSimpleBackend badParse "n" "bad"
        = .panicked ("invalid URL: " ++ "missing protocol scheme") :=
  ⟨Or.inl rfl,
   C6_amended.1 okParse (backendBuilder "api") emptyProxy (Or.inl rfl),
   rfl,
   C6_amended.2 badParse "n" "bad" "missing protocol scheme" rfl⟩

/-- C7: the health state machine the claim describes does not exist in the
code — `healthChecker` is a configuration-only stub, no operation ever
mutates a server's `Healthy` flag (serving leaves the backend unchanged),
and every successfully built backend reports all servers healthy forever;
probes, failure thresholds `F`, success thresholds `S` and the
`Recovering` state are absent. -/
theorem C7_health_machine_absent :
    (∀ (b : Backend) (rs : List Request), serveMany b rs = b)
    ∧ (∀ (parse : String → Except String String) (bb : BackendBuilderS) (st : ProxyState),
        allHealthyResult (buildBackend parse bb st) = true) := by
  constructor
  · exact serveMany_state
  · intro parse bb st
    rcases hsv : bb.servers with _ | ⟨u1, _ | ⟨u2, us⟩⟩
    · simp [buildBackend, hsv, allHealthyResult]
    · cases hp : parse u1 with
      | error e => simp [buildBackend, hsv, hp, allHealthyResult]
      | ok url => simp [buildBackend, hsv, hp, allHealthyResult, healthStatus]
    · cases hps : parseServers parse (u1 :: u2 :: us) with
      | panicked e => simp [buildBackend, hsv, hps, allHealthyResult]
      | ok svs =>
        simp only [buildBackend, hsv, hps, allHealthyResult, healthStatus]
        exact healthFold_all svs [] rfl
          (parseServers_ok_healthy parse (u1 :: u2 :: us) svs hps)

/-- C8, counterexample: a route registered after `ListenAndServe` has run
is appended to the route list and its pattern matches the request, yet
dispatch — which uses the mux snapshot built at start — returns 404. -/
theorem C8_counterexample :
    ∃ st2, listenAndServe preStart = .ok st2
      ∧ pathMatch "/b/" "/b/x" = true
      ∧ (routeTo st2 "/b/" [] byB).2.routes.map (fun r => r.pattern) = ["/a/", "/b/"]
      ∧ serveRequest ((routeTo st2 "/b/" [] byB).2) "/b/x"
          = some (.errResp "404 page not found" 404, []) := by
  refine ⟨_, rfl, rfl, rfl, rfl⟩

/-- C8, amended: `ListenAndServe` installs the handler built once from
the routes present at that moment, and dispatch serves from that
snapshot; registering a route afterwards changes the route list but not
what dispatch observes. -/
theorem C8_amended_snapshot :
    (∀ (st : ProxyState) (m : Mux), buildHandler st = .ok m →
        listenAndServe st = .ok { st with server := some m }
          ∧ ∀ path, serveRequest { st with server := some m } path
              = some (muxServe m { path := path }))
    ∧ (∀ (st : ProxyState) (pat : String) (mws : List Middleware) (b : Backend) (path : String),
        serveRequest ((routeTo st pat mws b).2) path = serveRequest st path) := by
  constructor
  · intro st m h
    constructor
    · unfold listenAndServe
      rw [h]
    · intro path
      rfl
  · intro st pat mws b path
    rfl

/-- C8, witness: the snapshot theorem applied to the one-route pre-start
state. -/
theorem C8_witness :
    buildHandler preStart = .ok muxA
    ∧ (listenAndServe preStart = .ok { preStart with server := some muxA }
        ∧ ∀ path, serveRequest { preStart with server := some muxA } path
            = some (muxServe muxA { path := path })) :=
  ⟨rfl, C8_amended_snapshot.1 preStart muxA rfl⟩

/-- C9: building two or more servers with no `WithLoadBalancer` call
yields a cluster backend whose loadBalancer field is nil — no round-robin
default is substituted — and every subsequent `ServeHTTP` call panics
with the nil-interface dereference. -/
theorem C9_nil_loadbalancer (parse : String → Except String String)
    (bb : BackendBuilderS) (st : ProxyState) (b : Backend) (st2 : ProxyState)
    (hlb : bb.loadBalancer = none) (hlen : 2 ≤ bb.servers.length)
    (hok : buildBackend parse bb st = .ok (b, st2)) :
    (∃ svs, b = Backend.cluster bb.name svs none (mkHealthChecker bb))
    ∧ (∀ r, (serveHTTP b r).1 = .panicked nilDerefMsg) := by
  rcases hsv : bb.servers with _ | ⟨u1, _ | ⟨u2, us⟩⟩
  · rw [hsv] at hlen
    simp at hlen
  · rw [hsv] at hlen
    simp at hlen
  · cases hps : parseServers parse (u1 :: u2 :: us) with
    | panicked e =>
      simp [buildBackend, hsv, hps] at hok
    | ok svs =>
      simp only [buildBackend, hsv, hps] at hok
      cases hok
      rw [hlb]
      refine ⟨⟨svs, rfl⟩, ?_⟩
      intro r
      rfl

/-- C9, witness: the nil-loadbalancer theorem applied to a concrete
two-server builder. -/
theorem C9_witness :
    bbW.loadBalancer = none
    ∧ 2 ≤ bbW.servers.length
    ∧ buildBackend okParse bbW emptyProxy = .ok (bW, stW)
    ∧ ((∃ svs, bW = Backend.cluster bbW.name svs none (mkHealthChecker bbW))
        ∧ ∀ r, (serveHTTP bW r).1 = .panicked nilDerefMsg) :=
  ⟨rfl, by decide, rfl,
   C9_nil_loadbalancer okParse bbW emptyProxy bW stW rfl (by decide) rfl⟩

/-- C10, counterexample: a cluster built from the same URL listed twice
has two configured servers but its `HealthStatus` map has a single entry
— the Go map keyed by URL string collapses duplicates, refuting `exactly
one entry per configured Server`. -/
theorem C10_counterexample :
    buildBackend okParse bbDup emptyProxy
      = .ok (bDup, { emptyProxy with backends := [("dup", bDup)] })
    ∧ (backendServers bDup).length = 2
    ∧ healthStatus bDup = [("http://a", { healthy := true })]
    ∧ (healthStatus bDup).length = 1 := ⟨rfl, rfl, rfl, rfl⟩

/-- C10, amended: every server of a built multi-server backend starts
healthy, and whenever the configured URL strings are pairwise distinct,
`HealthStatus` returns exactly one entry per server, keyed by the server
URL, carrying that server's current flag. -/
theorem C10_amended_health_report (parse : String → Except String String)
    (bb : BackendBuilderS) (st : ProxyState) (b : Backend) (st2 : ProxyState)
    (hlen : 2 ≤ bb.servers.length)
    (hok : buildBackend parse bb st = .ok (b, st2)) :
    ∃ svs, b = Backend.cluster bb.name svs bb.loadBalancer (mkHealthChecker bb)
      ∧ (∀ s ∈ svs, s.healthy = true)
      ∧ ((svs.map (fun s => s.url)).Nodup →
          healthStatus b = svs.map (fun s => (s.url, { healthy := s.healthy }))) := by
  rcases hsv : bb.servers with _ | ⟨u1, _ | ⟨u2, us⟩⟩
  · rw [hsv] at hlen
    simp at hlen
  · rw [hsv] at hlen
    simp at hlen
  · cases hps : parseServers parse (u1 :: u2 :: us) with
    | panicked e =>
      simp [buildBackend, hsv, hps] at hok
    | ok svs =>
      simp only [buildBackend, hsv, hps] at hok
      cases hok
      refine ⟨svs, rfl, parseServers_ok_healthy parse (u1 :: u2 :: us) svs hps, ?_⟩
      intro hn
      have hh := healthFold_nodup svs [] (fun s _ => rfl) hn
      rw [List.nil_append] at hh
      simp only [healthStatus]
      exact hh

/-- C10, witness: the health-report theorem applied to a concrete
two-server builder with distinct URLs. -/
theorem C10_witness :
    2 ≤ bbW.servers.length
    ∧ buildBackend okParse bbW emptyProxy = .ok (bW, stW)
    ∧ ∃ svs, bW = Backend.cluster bbW.name svs bbW.loadBalancer (mkHealthChecker bbW)
        ∧ (∀ s ∈ svs, s.healthy = true)
        ∧ ((svs.map (fun s => s.url)).Nodup →
            healthStatus bW = svs.map (fun s => (s.url, { healthy := s.healthy }))) :=
  ⟨by decide, rfl,
   C10_amended_health_report okParse bbW emptyProxy bW stW (by decide) rfl⟩

end ProxVerify
